import Mathlib

/-!
Shallow embedding of the TeleTable backend's Robot Control Core
(src/robot/{state.rs, mod.rs, robot_routes.rs, client_routes.rs,
queue_routes.rs, optimization_helper.rs} and src/auth/roles.rs),
with theorems settling the spec claims about it.

Modelling conventions:
* UTC instants are integers counting seconds (chrono `DateTime<Utc>` at
  second resolution, which is the granularity every relevant comparison
  in the source uses).
* The tokio broadcast command bus is modelled by the list of commands a
  handler passes to `command_sender.send`, in order; the boolean `busOk`
  stands for "the send returned Ok" (there is at least one subscriber)
  in the one place where the source inspects the send result
  (`process_queue`).
* Rust `Uuid` is modelled as its canonical hyphenated lowercase string;
  `Uuid.parse` models `Uuid::parse_str` restricted to the hyphenated
  8-4-4-4-12 format (the only format the claims exercise).
* Each axum handler becomes a pure function from its inputs and the
  store snapshot to (result, new store, emitted commands).
-/

namespace TeleTable

/-- Roles, from src/auth/roles.rs: string constants. -/
def ADMIN : String := "Admin"

/-- Operator role constant (src/auth/roles.rs). -/
def OPERATOR : String := "Operator"

/-- Viewer role constant (src/auth/roles.rs). -/
def VIEWER : String := "Viewer"

/-- Role predicate `is_admin` from src/auth/roles.rs. -/
def is_admin (role : String) : Bool := role == ADMIN

/-- Role predicate `is_operator` from src/auth/roles.rs. -/
def is_operator (role : String) : Bool := role == OPERATOR

/-- Role predicate `can_operate` from src/auth/roles.rs. -/
def can_operate (role : String) : Bool := role == ADMIN || role == OPERATOR

/-- Hex digit test used by the modelled UUID parser. -/
def isHexDigit (c : Char) : Bool :=
  c.isDigit || ('a' ≤ c && c ≤ 'f') || ('A' ≤ c && c ≤ 'F')

/-- A UUID, modelled by its canonical hyphenated lowercase string form
(the `uuid` crate's `to_string`). -/
structure Uuid where
  val : String
deriving DecidableEq, Repr

/-- The canonical string of a UUID (`Uuid::to_string`). -/
def Uuid.toString (u : Uuid) : String := u.val

/-- Character check for the hyphenated UUID format: hyphens at positions
8, 13, 18, 23 and hex digits elsewhere. -/
def uuidCharOk (i : Nat) (c : Char) : Bool :=
  if i = 8 || i = 13 || i = 18 || i = 23 then c == '-' else isHexDigit c

/-- Validity of the hyphenated 8-4-4-4-12 UUID format. -/
def validHyphenated (s : String) : Bool :=
  s.length == 36 && (List.range 36).all fun i =>
    match s.toList.get? i with
    | some c => uuidCharOk i c
    | none => false

/-- Modelled `Uuid::parse_str`, restricted to the hyphenated format;
normalizes to lowercase as the crate does. -/
def Uuid.parse (s : String) : Option Uuid :=
  if validHyphenated s then some ⟨s.toLower⟩ else none

/-- JWT claims (src/auth/models.rs): subject id, display name, role. The
`exp` field plays no role in the claims settled here and is omitted. -/
structure Claims where
  sub : String
  name : String
  role : String
deriving DecidableEq, Repr

/-- Telemetry snapshot `RobotState` from src/robot/models.rs. -/
structure RobotState where
  system_health : String
  battery_level : Nat
  drive_mode : String
  cargo_status : String
  current_position : String
  last_node : Option String
  target_node : Option String
deriving DecidableEq, Repr

/-- Manual-drive lock record `LockInfo` from src/robot/state.rs. -/
structure LockInfo where
  holder_id : Uuid
  holder_name : String
  expires_at : Int
deriving DecidableEq, Repr

/-- Queue entry `QueuedRoute` from src/robot/models.rs. -/
structure QueuedRoute where
  id : Uuid
  start : String
  destination : String
  added_at : Int
  added_by : String
deriving DecidableEq, Repr

/-- Command variants `RobotCommand` from src/robot/models.rs. Velocity
and volume payloads are carried as integers; no claim depends on their
numeric type. -/
inductive RobotCommand where
  | Navigate (start destination : String)
  | Cancel
  | DriveCommand (linear_velocity angular_velocity : Int)
  | Led (enabled : Bool) (r g b brightness : Nat)
  | AudioBeep (hz ms : Nat)
  | AudioVolume (value : Int)
deriving DecidableEq, Repr

/-- The store `SharedRobotState` from src/robot/state.rs, as a snapshot
value; the broadcast sender handle is modelled separately (see `busOk`
and emitted-command lists). -/
structure SharedRobotState where
  current_state : Option RobotState
  last_state_update : Option Int
  manual_lock : Option LockInfo
  robot_url : Option String
  cached_nodes : Option (List String)
  queue : List QueuedRoute
  active_route : Option QueuedRoute
deriving DecidableEq, Repr

/-- Staleness threshold `ROBOT_STALE_TIMEOUT_SECS` (src/robot/state.rs). -/
def ROBOT_STALE_TIMEOUT_SECS : Int := 30

/-- `SharedRobotState::is_robot_connected` (src/robot/state.rs): true iff
a state update arrived within the staleness threshold. -/
def is_robot_connected (now : Int) (s : SharedRobotState) : Bool :=
  match s.last_state_update with
  | some t => now - t < ROBOT_STALE_TIMEOUT_SECS
  | none => false

/-- The manual-lock gate of `process_queue` (src/robot/mod.rs step 1):
a stored lock whose `expires_at` is strictly in the future. -/
def lock_is_effective (now : Int) (s : SharedRobotState) : Bool :=
  match s.manual_lock with
  | some l => now < l.expires_at
  | none => false

/-- The telemetry gate of `process_queue` (src/robot/mod.rs step 3):
telemetry present with `drive_mode == "IDLE"`. -/
def telemetry_idle (s : SharedRobotState) : Bool :=
  match s.current_state with
  | some rs => rs.drive_mode == "IDLE"
  | none => false

/-- `process_queue` from src/robot/mod.rs. Returns the new store and the
commands emitted on the bus during the invocation. `busOk` is the
outcome of `command_sender.send`: on Err the popped route is pushed back
to the front (leaving the queue unchanged) and no active route is set. -/
def process_queue (now : Int) (busOk : Bool) (s : SharedRobotState) :
    SharedRobotState × List RobotCommand :=
  if lock_is_effective now s then (s, [])
  else if ¬ is_robot_connected now s then (s, [])
  else if ¬ telemetry_idle s then (s, [])
  else if s.active_route.isSome then (s, [])
  else
    match s.queue with
    | [] => (s, [])
    | next :: rest =>
      let cmd := RobotCommand.Navigate next.start next.destination
      if busOk then
        ({ s with queue := rest, active_route := some next }, [cmd])
      else
        (s, [cmd])

/-- The route-completion step of `update_robot_state`
(src/robot/robot_routes.rs lines 38-46): if an active route exists and
the posted telemetry reports IDLE, clear the active route. -/
def route_completion (payload : RobotState) (s : SharedRobotState) :
    SharedRobotState :=
  if s.active_route.isSome && payload.drive_mode == "IDLE" then
    { s with active_route := none }
  else s

/-- Handler `update_robot_state` for POST /table/state
(src/robot/robot_routes.rs): checks the X-Api-Key header, overwrites the
telemetry snapshot, runs the route-completion step, then invokes
`process_queue`. Note that the source never writes `last_state_update`.
Returns (HTTP status, new store, emitted commands). -/
def update_robot_state (apiKey : Option String) (robotKey : String)
    (payload : RobotState) (now : Int) (busOk : Bool)
    (s : SharedRobotState) : Nat × SharedRobotState × List RobotCommand :=
  if apiKey ≠ some robotKey then (401, s, [])
  else
    let s1 := { s with current_state := some payload }
    let s2 := route_completion payload s1
    let (s3, out) := process_queue now busOk s2
    (200, s3, out)

/-- Status wire record `StatusResponse` from src/robot/models.rs. -/
structure LastRoute where
  start_node : String
  end_node : String
deriving DecidableEq, Repr

/-- Full response of GET /status (src/robot/models.rs `StatusResponse`). -/
structure StatusResponse where
  system_health : String
  battery_level : Nat
  drive_mode : String
  cargo_status : String
  last_route : Option LastRoute
  position : String
  manual_lock_holder_name : Option String
deriving DecidableEq, Repr

/-- Handler `get_status` for GET /status
(src/robot/client_routes.rs lines 24-68): reads the telemetry snapshot
and the manual lock slot; reports the stored lock's holder name (the
source applies no expiry filter). -/
def get_status (s : SharedRobotState) : StatusResponse :=
  let base : StatusResponse :=
    match s.current_state with
    | some rs =>
      { system_health := rs.system_health
        battery_level := rs.battery_level
        drive_mode := rs.drive_mode
        cargo_status := rs.cargo_status
        last_route :=
          match rs.last_node, rs.target_node with
          | some start, some tgt => some ⟨start, tgt⟩
          | _, _ => none
        position := rs.current_position
        manual_lock_holder_name := none }
    | none =>
      { system_health := "UNKNOWN"
        battery_level := 0
        drive_mode := "UNKNOWN"
        cargo_status := "UNKNOWN"
        last_route := none
        position := "UNKNOWN"
        manual_lock_holder_name := none }
  { base with manual_lock_holder_name := s.manual_lock.map (·.holder_name) }

/-- Commands restricted to Admin by step 1a of the manual-drive socket
handler (src/robot/client_routes.rs lines 126-134): Led, AudioBeep,
AudioVolume. -/
def admin_only_command : RobotCommand → Bool
  | RobotCommand.Led _ _ _ _ _ => true
  | RobotCommand.AudioBeep _ _ => true
  | RobotCommand.AudioVolume _ => true
  | _ => false

/-- One iteration of `handle_manual_socket`'s frame loop
(src/robot/client_routes.rs lines 107-209) on a single inbound text
frame. `frame` is the result of decoding the frame's JSON (`none` for a
malformed frame, silently discarded); `newId` is the fresh `Uuid::new_v4`
used when an admin Navigate installs a new active route; `now` is
`Utc::now()` at the frame. Returns the new store and the commands passed
to the bus, in order. -/
def handle_manual_frame (claims : Claims) (now : Int) (newId : Uuid)
    (frame : Option RobotCommand) (s : SharedRobotState) :
    SharedRobotState × List RobotCommand :=
  match frame with
  | none => (s, [])
  | some cmd =>
    if ¬ can_operate claims.role then (s, [])
    else if ¬ is_admin claims.role && admin_only_command cmd then (s, [])
    else if is_admin claims.role then
      match cmd with
      | RobotCommand.Navigate start destination =>
        let should_revoke :=
          match s.manual_lock with
          | some l => l.holder_id.toString != claims.sub
          | none => false
        let s1 := if should_revoke then { s with manual_lock := none } else s
        let newRoute : QueuedRoute :=
          ⟨newId, start, destination, now, claims.name⟩
        match s1.active_route with
        | some active =>
          ({ s1 with queue := active :: s1.queue, active_route := some newRoute },
           [RobotCommand.Cancel, cmd])
        | none =>
          ({ s1 with active_route := some newRoute }, [cmd])
      | _ => (s, [cmd])
    else
      match cmd with
      | RobotCommand.Navigate _ _ => (s, [])
      | RobotCommand.Cancel => (s, [])
      | _ =>
        let is_holder :=
          match s.manual_lock with
          | some l => l.holder_id.toString == claims.sub
          | none => false
        if is_holder then (s, [cmd]) else (s, [])

/-- Outcome of POST /drive/lock (src/robot/client_routes.rs
`acquire_lock`). -/
inductive AcquireOutcome where
  | forbidden
  | errorActiveRoute
  | errorHeld (holder : String)
  | errorInvalidUuid
  | success (message : String)
deriving DecidableEq, Repr

/-- True exactly on the `success` outcome (wire `{status:"success"}`). -/
def AcquireOutcome.isSuccess : AcquireOutcome → Bool
  | AcquireOutcome.success _ => true
  | _ => false

/-- The tail of `acquire_lock` after the held-lock check
(src/robot/client_routes.rs lines 354-378): parse the caller's sub as a
UUID; on success install/renew the lock with `now + 30`, otherwise
report an error without touching the slot. -/
def finish_acquire (claims : Claims) (now : Int) (s : SharedRobotState) :
    AcquireOutcome × SharedRobotState :=
  match Uuid.parse claims.sub with
  | some uid =>
    let s' :=
      { s with manual_lock := some (LockInfo.mk uid claims.name (now + 30)) }
    let msg :=
      if is_admin claims.role && s'.active_route.isSome then
        "Admin lock acquired while automated route is active"
      else "Lock acquired"
    (AcquireOutcome.success msg, s')
  | none => (AcquireOutcome.errorInvalidUuid, s)

/-- Handler `acquire_lock` for POST /drive/lock
(src/robot/client_routes.rs lines 315-379). -/
def acquire_lock (claims : Claims) (now : Int) (s : SharedRobotState) :
    AcquireOutcome × SharedRobotState :=
  if ¬ can_operate claims.role then (AcquireOutcome.forbidden, s)
  else if ¬ is_admin claims.role && s.active_route.isSome then
    (AcquireOutcome.errorActiveRoute, s)
  else
    match s.manual_lock with
    | some l =>
      if l.expires_at > now && l.holder_id.toString ≠ claims.sub &&
          ¬ is_admin claims.role then
        (AcquireOutcome.errorHeld l.holder_name, s)
      else finish_acquire claims now s
    | none => finish_acquire claims now s

/-- Outcome of DELETE /drive/lock (src/robot/client_routes.rs
`release_lock`). -/
inductive ReleaseOutcome where
  | forbidden
  | success
  | notHolder
deriving DecidableEq, Repr

/-- Handler `release_lock` for DELETE /drive/lock
(src/robot/client_routes.rs lines 381-408): only a caller whose sub
equals the stored lock's holder id releases; the source applies no
expiry check. -/
def release_lock (claims : Claims) (s : SharedRobotState) :
    ReleaseOutcome × SharedRobotState :=
  if ¬ can_operate claims.role then (ReleaseOutcome.forbidden, s)
  else
    match s.manual_lock with
    | some l =>
      if l.holder_id.toString = claims.sub then
        (ReleaseOutcome.success, { s with manual_lock := none })
      else (ReleaseOutcome.notHolder, s)
    | none => (ReleaseOutcome.notHolder, s)

/-- Transition cost between consecutive queued routes
(src/robot/optimization_helper.rs `transition_cost`): the injected cost
of the first route's destination against the second route's start. Cost
values are modelled as naturals; the in-service default takes only the
values 0 and 1. -/
def transition_cost (cost : String → String → Nat) (a b : QueuedRoute) :
    Nat :=
  cost a.destination b.start

/-- The default in-service cost function
(src/robot/queue_routes.rs `optimize_routes`): 0 on equal node names,
1 otherwise. -/
def default_cost (a b : String) : Nat := if a = b then 0 else 1

/-- Stable insertion by `added_at`; `sortByAddedAt` models Rust's stable
`routes.sort_by_key(|r| r.added_at)`. -/
def insertByAddedAt (x : QueuedRoute) :
    List QueuedRoute → List QueuedRoute
  | [] => [x]
  | y :: ys =>
    if x.added_at ≤ y.added_at then x :: y :: ys
    else y :: insertByAddedAt x ys

/-- Stable sort by `added_at` ascending (insertion sort; extensionally
equal to any stable sort, hence to Rust's `sort_by_key`). -/
def sortByAddedAt : List QueuedRoute → List QueuedRoute
  | [] => []
  | x :: xs => insertByAddedAt x (sortByAddedAt xs)

/-- First-minimum selection and removal: models the
`enumerate().min_by(...)` + `remove(best_idx)` pair inside
`greedy_atsp_path` (ties resolved to the lowest index, as Rust's
`min_by` returns the first minimal element). Returns the chosen element
and the remaining list in order. -/
def pickMin (f : QueuedRoute → Nat) :
    List QueuedRoute → Option (QueuedRoute × List QueuedRoute)
  | [] => none
  | r :: rs =>
    match pickMin f rs with
    | none => some (r, [])
    | some (b, rest) =>
      if f r ≤ f b then some (r, rs) else some (b, r :: rest)

/-- The `while !routes.is_empty()` loop of `greedy_atsp_path`, with fuel
equal to the number of remaining routes (each step removes exactly
one). -/
def greedyAux (cost : String → String → Nat) :
    Nat → QueuedRoute → List QueuedRoute → List QueuedRoute
  | 0, _, _ => []
  | Nat.succ fuel, last, routes =>
    match pickMin (fun r => transition_cost cost last r) routes with
    | none => []
    | some (b, rest) => b :: greedyAux cost fuel b rest

/-- Greedy nearest-neighbour phase `greedy_atsp_path`
(src/robot/optimization_helper.rs lines 10-38): return inputs of length
at most 1 as-is, otherwise sort by `added_at`, seed with the earliest
entry, and repeatedly append the remaining route of minimal transition
cost. -/
def greedy_atsp_path (cost : String → String → Nat)
    (routes : List QueuedRoute) : List QueuedRoute :=
  if routes.length ≤ 1 then routes
  else
    match sortByAddedAt routes with
    | [] => []
    | r :: rs => r :: greedyAux cost rs.length r rs

/-- In-place segment reversal `path[a..b].reverse()`: reverses the
half-open index range [a, b). -/
def reverseSegment (p : List QueuedRoute) (a b : Nat) :
    List QueuedRoute :=
  p.take a ++ ((p.drop a).take (b - a)).reverse ++ p.drop b

/-- Inner `for j in i+2..n` loop of `two_opt_atsp_path`
(src/robot/optimization_helper.rs lines 54-69), carrying the current
path and the `improved` flag. -/
def twoOptJ (cost : String → String → Nat) (n i : Nat) (j : Nat)
    (st : List QueuedRoute × Bool) : List QueuedRoute × Bool :=
  if _h : j < n then
    match st.1.get? i, st.1.get? (i + 1), st.1.get? (j - 1), st.1.get? j with
    | some a, some b, some c, some d =>
      if transition_cost cost a c + transition_cost cost b d <
          transition_cost cost a b + transition_cost cost c d then
        twoOptJ cost n i (j + 1) (reverseSegment st.1 (i + 1) j, true)
      else twoOptJ cost n i (j + 1) st
    | _, _, _, _ => twoOptJ cost n i (j + 1) st
  else st
termination_by n - j
decreasing_by all_goals omega

/-- Outer `for i in 0..n-2` loop of `two_opt_atsp_path`. -/
def twoOptI (cost : String → String → Nat) (n : Nat) (i : Nat)
    (st : List QueuedRoute × Bool) : List QueuedRoute × Bool :=
  if _h : i < n - 2 then
    twoOptI cost n (i + 1) (twoOptJ cost n i (i + 2) st)
  else st
termination_by n - 2 - i
decreasing_by all_goals omega

/-- The `while improved` loop of `two_opt_atsp_path`, encoded with a
fuel bound on the number of full passes (the source iterates until a
pass makes no improvement). -/
def two_opt_loop (cost : String → String → Nat) (n : Nat) :
    Nat → List QueuedRoute → List QueuedRoute
  | 0, p => p
  | Nat.succ fuel, p =>
    let res := twoOptI cost n 0 (p, false)
    if res.2 then two_opt_loop cost n fuel res.1 else res.1

/-- 2-opt improvement phase `two_opt_atsp_path`
(src/robot/optimization_helper.rs lines 40-74): skipped for paths of
length below 4. -/
def two_opt_atsp_path (cost : String → String → Nat) (fuel : Nat)
    (path : List QueuedRoute) : List QueuedRoute :=
  if path.length < 4 then path
  else two_opt_loop cost path.length fuel path

/-- The optimizer entry point `solve_atsp_path`
(src/robot/optimization_helper.rs lines 76-82): greedy phase followed by
2-opt. `fuel` bounds the number of 2-opt passes. -/
def solve_atsp_path (fuel : Nat) (cost : String → String → Nat)
    (routes : List QueuedRoute) : List QueuedRoute :=
  two_opt_atsp_path cost fuel (greedy_atsp_path cost routes)

/-- Total transition cost of a path (the quantity the optimizer is
meant to reduce): sum of transition costs over consecutive pairs. -/
def path_cost (cost : String → String → Nat) :
    List QueuedRoute → Nat
  | a :: b :: rest => transition_cost cost a b + path_cost cost (b :: rest)
  | _ => 0

end TeleTable

namespace TeleTable

/-- C2: if an invocation of `process_queue` transitions `active_route`
from `none` to `some r`, then `r` was the head of the queue before the
call, the queue length decreased by exactly one, and exactly one
Navigate command with `r`'s start and destination was emitted. -/
theorem process_queue_dispatch (now : Int) (busOk : Bool)
    (s : SharedRobotState) (r : QueuedRoute)
    (h0 : s.active_route = none)
    (h1 : (process_queue now busOk s).1.active_route = some r) :
    s.queue.head? = some r ∧
    (process_queue now busOk s).1.queue.length + 1 = s.queue.length ∧
    (process_queue now busOk s).2 =
      [RobotCommand.Navigate r.start r.destination] := by
  unfold process_queue at h1 ⊢
  by_cases hl : lock_is_effective now s
  · simp [hl, h0] at h1
  · by_cases hc : is_robot_connected now s
    · by_cases hi : telemetry_idle s
      · cases hq : s.queue with
        | nil => simp [hl, hc, hi, h0, hq] at h1
        | cons next rest =>
          cases busOk with
          | true =>
            simp only [hl, hc, hi, h0, hq] at h1
            simp only [Bool.false_eq_true, not_false_eq_true, if_neg,
              Option.isSome_none, if_true, if_pos, ite_false, ite_true] at h1
            simp [hl, hc, hi, h0, hq] at h1 ⊢
            obtain rfl : next = r := h1
            simp
          | false =>
            simp [hl, hc, hi, h0, hq] at h1
      · simp [hl, hc, hi, h0] at h1
    · simp [hl, hc, h0] at h1

/-- Closed witness for `process_queue_dispatch` at a concrete store. -/
theorem process_queue_dispatch_witness :
    (let r : QueuedRoute :=
      ⟨⟨"11111111-1111-1111-1111-111111111111"⟩, "A", "B", 0, "alice"⟩
     let s : SharedRobotState :=
      ⟨some ⟨"OK", 80, "IDLE", "EMPTY", "lobby", none, none⟩,
       some 100, none, none, none, [r], none⟩
     s.active_route = none ∧
     (process_queue 100 true s).1.active_route = some r ∧
     s.queue.head? = some r ∧
     (process_queue 100 true s).1.queue.length + 1 = s.queue.length ∧
     (process_queue 100 true s).2 =
       [RobotCommand.Navigate r.start r.destination]) := by
  refine ⟨rfl, rfl, ?_⟩
  have h := process_queue_dispatch 100 true
    ⟨some ⟨"OK", 80, "IDLE", "EMPTY", "lobby", none, none⟩,
     some 100, none, none, none,
     [⟨⟨"11111111-1111-1111-1111-111111111111"⟩, "A", "B", 0, "alice"⟩],
     none⟩
    ⟨⟨"11111111-1111-1111-1111-111111111111"⟩, "A", "B", 0, "alice"⟩
    rfl rfl
  exact h

/-- C3: when an effective lock exists, or the robot is disconnected, or
telemetry is absent or not IDLE, or an active route exists,
`process_queue` emits nothing and leaves the store exactly unchanged. -/
theorem process_queue_noop (now : Int) (busOk : Bool)
    (s : SharedRobotState)
    (h : lock_is_effective now s = true ∨
         is_robot_connected now s = false ∨
         telemetry_idle s = false ∨
         s.active_route.isSome = true) :
    process_queue now busOk s = (s, []) := by
  unfold process_queue
  rcases h with h | h | h | h
  · simp [h]
  · simp [h]
  · by_cases hl : lock_is_effective now s
    · simp [hl]
    · simp [hl, h]
  · by_cases hl : lock_is_effective now s
    · simp [hl]
    · by_cases hc : is_robot_connected now s
      · simp [hl, hc, h]
      · simp [hl, hc]

/-- Closed witness for `process_queue_noop`: an effective lock gates the
dispatcher even with a nonempty queue. -/
theorem process_queue_noop_witness :
    (let r : QueuedRoute :=
      ⟨⟨"11111111-1111-1111-1111-111111111111"⟩, "A", "B", 0, "alice"⟩
     let s : SharedRobotState :=
      ⟨some ⟨"OK", 80, "IDLE", "EMPTY", "lobby", none, none⟩,
       some 100, some ⟨⟨"22222222-2222-2222-2222-222222222222"⟩, "bob", 130⟩,
       none, none, [r], none⟩
     lock_is_effective 100 s = true ∧ process_queue 100 true s = (s, [])) := by
  refine ⟨by decide, ?_⟩
  exact process_queue_noop 100 true _ (Or.inl (by decide))

/-- C1 (code evaluation at the failing input): a correctly authenticated
POST /table/state overwrites the telemetry snapshot and answers 200, yet
leaves `last_state_update` at `none` — the handler never stamps it, so
the claim's "lastUpdate is set to the time of the post" fails. -/
theorem update_robot_state_does_not_stamp_lastUpdate :
    (let payload : RobotState := ⟨"OK", 80, "NAVIGATING", "EMPTY", "lobby", none, none⟩
     let s0 : SharedRobotState := ⟨none, none, none, none, none, [], none⟩
     let res := update_robot_state (some "secret-robot-key") "secret-robot-key"
       payload 100 true s0
     res.1 = 200 ∧ res.2.1.current_state = some payload ∧
       res.2.1.last_state_update = none) := by
  exact ⟨rfl, rfl, rfl⟩

/-- C7: for a correctly authenticated telemetry post whose body reports
`driveMode = "IDLE"`, the route-completion step of the handler clears a
previously set active route (before the dispatcher is invoked). -/
theorem route_completion_clears_active_route
    (payload : RobotState) (s : SharedRobotState) (p : QueuedRoute)
    (hmode : payload.drive_mode = "IDLE")
    (hactive : s.active_route = some p) :
    (route_completion payload s).active_route = none := by
  simp [route_completion, hactive, hmode]

/-- Closed witness for `route_completion_clears_active_route`. -/
theorem route_completion_clears_active_route_witness :
    (let payload : RobotState := ⟨"OK", 80, "IDLE", "EMPTY", "lobby", none, none⟩
     let p : QueuedRoute :=
      ⟨⟨"11111111-1111-1111-1111-111111111111"⟩, "A", "B", 0, "alice"⟩
     let s : SharedRobotState :=
      ⟨some payload, some 100, none, none, none, [], some p⟩
     payload.drive_mode = "IDLE" ∧ s.active_route = some p ∧
       (route_completion payload s).active_route = none) := by
  exact ⟨rfl, rfl, route_completion_clears_active_route _ _ _ rfl rfl⟩

/-- C4 (code evaluation at the failing input): GET /status reports the
stored lock's holder name even when the lock is already expired
(`expires_at = 90 ≤ now = 100`), contradicting the claim (and the
repository's own test) that an expired lock yields a null holder name. -/
theorem get_status_reports_expired_lock_holder :
    (let s : SharedRobotState :=
      ⟨none, none, some ⟨⟨"22222222-2222-2222-2222-222222222222"⟩, "Old User", 90⟩,
       none, none, [], none⟩
     lock_is_effective 100 s = false ∧
       (get_status s).manual_lock_holder_name = some "Old User") := by
  exact ⟨rfl, rfl⟩

/-- C5 (amended): on the manual-drive socket, an Operator frame is
forwarded to the bus iff it decodes to a DriveCommand and the stored
lock's holder id equals the caller's sub — the source checks the holder
only, not expiry — and the store is left unchanged; Navigate and Cancel
are never forwarded. -/
theorem operator_frame_forwarding (claims : Claims) (now : Int)
    (newId : Uuid) (cmd : RobotCommand) (s : SharedRobotState)
    (hop : is_operator claims.role = true) :
    handle_manual_frame claims now newId (some cmd) s =
      (s,
        match cmd, s.manual_lock with
        | RobotCommand.DriveCommand _ _, some l =>
          if l.holder_id.toString == claims.sub then [cmd] else []
        | _, _ => []) := by
  have hrole : claims.role = "Operator" := by
    simpa [is_operator, OPERATOR] using hop
  cases cmd <;> cases hml : s.manual_lock <;>
    simp [handle_manual_frame, can_operate, is_admin, admin_only_command,
      hrole, ADMIN, OPERATOR, hml]
  split <;> simp_all

/-- Closed witness for `operator_frame_forwarding`: holder-matching
DriveCommand is forwarded unchanged. -/
theorem operator_frame_forwarding_witness :
    (let claims : Claims :=
      ⟨"22222222-2222-2222-2222-222222222222", "bob", "Operator"⟩
     let s : SharedRobotState :=
      ⟨none, none, some ⟨⟨"22222222-2222-2222-2222-222222222222"⟩, "bob", 130⟩,
       none, none, [], none⟩
     is_operator claims.role = true ∧
     handle_manual_frame claims 100 ⟨"33333333-3333-3333-3333-333333333333"⟩
       (some (RobotCommand.DriveCommand 1 0)) s =
       (s, [RobotCommand.DriveCommand 1 0])) := by
  refine ⟨rfl, ?_⟩
  have h := operator_frame_forwarding
    ⟨"22222222-2222-2222-2222-222222222222", "bob", "Operator"⟩ 100
    ⟨"33333333-3333-3333-3333-333333333333"⟩
    (RobotCommand.DriveCommand 1 0)
    ⟨none, none, some ⟨⟨"22222222-2222-2222-2222-222222222222"⟩, "bob", 130⟩,
     none, none, [], none⟩ (by decide)
  rw [h]
  decide

/-- C5 counterexample to the claim as stated: an Operator whose stored
lock is already expired (`expires_at = 90 ≤ now = 100`) still gets a
DriveCommand forwarded — the claimed requirement of an effective lock
does not hold in the source. -/
theorem operator_frame_forwarded_despite_expired_lock :
    (let claims : Claims :=
      ⟨"22222222-2222-2222-2222-222222222222", "bob", "Operator"⟩
     let s : SharedRobotState :=
      ⟨none, none, some ⟨⟨"22222222-2222-2222-2222-222222222222"⟩, "bob", 90⟩,
       none, none, [], none⟩
     lock_is_effective 100 s = false ∧
     (handle_manual_frame claims 100 ⟨"33333333-3333-3333-3333-333333333333"⟩
       (some (RobotCommand.DriveCommand 1 0)) s).2 =
       [RobotCommand.DriveCommand 1 0]) := by
  exact ⟨rfl, rfl⟩

/-- C6: after an admin Navigate frame on the manual-drive socket, any
surviving lock is held by that admin; and if an active route `p` existed
before the frame, afterwards the queue's head is `p`, the new route
(from the frame, stamped with the fresh id, `now`, and the admin's name)
is active, and exactly one Cancel was emitted before the Navigate. -/
theorem admin_navigate_preemption (claims : Claims) (now : Int)
    (newId : Uuid) (start destination : String) (s : SharedRobotState)
    (hadmin : is_admin claims.role = true) :
    (∀ l, (handle_manual_frame claims now newId
        (some (RobotCommand.Navigate start destination)) s).1.manual_lock =
          some l → l.holder_id.toString = claims.sub) ∧
    (∀ p, s.active_route = some p →
      (handle_manual_frame claims now newId
        (some (RobotCommand.Navigate start destination)) s).1.queue.head? =
          some p ∧
      (handle_manual_frame claims now newId
        (some (RobotCommand.Navigate start destination)) s).1.active_route =
          some ⟨newId, start, destination, now, claims.name⟩ ∧
      (handle_manual_frame claims now newId
        (some (RobotCommand.Navigate start destination)) s).2 =
          [RobotCommand.Cancel,
           RobotCommand.Navigate start destination]) := by
  have hrole : claims.role = "Admin" := by
    simpa [is_admin, ADMIN] using hadmin
  constructor
  · intro l hl
    cases hml : s.manual_lock with
    | none =>
      cases hact : s.active_route <;>
        simp [handle_manual_frame, can_operate, is_admin, admin_only_command,
          hrole, ADMIN, hml, hact] at hl
    | some l0 =>
      by_cases hid : l0.holder_id.toString = claims.sub
      · cases hact : s.active_route <;>
          simp [handle_manual_frame, can_operate, is_admin, admin_only_command,
            hrole, ADMIN, hml, hact, hid] at hl <;>
          simp [← hl, hid]
      · cases hact : s.active_route <;>
          simp [handle_manual_frame, can_operate, is_admin, admin_only_command,
            hrole, ADMIN, hml, hact, hid] at hl
  · intro p hact
    cases hml : s.manual_lock with
    | none =>
      simp [handle_manual_frame, can_operate, is_admin, admin_only_command,
        hrole, ADMIN, hml, hact]
    | some l0 =>
      by_cases hid : l0.holder_id.toString = claims.sub <;>
        simp [handle_manual_frame, can_operate, is_admin, admin_only_command,
          hrole, ADMIN, hml, hact, hid]

/-- Closed witness for `admin_navigate_preemption`: an admin Navigate
revokes a foreign lock, parks the active route at the queue head, and
emits Cancel then Navigate. -/
theorem admin_navigate_preemption_witness :
    (let claims : Claims :=
      ⟨"44444444-4444-4444-4444-444444444444", "alice", "Admin"⟩
     let p : QueuedRoute :=
      ⟨⟨"11111111-1111-1111-1111-111111111111"⟩, "A", "B", 0, "bob"⟩
     let s : SharedRobotState :=
      ⟨none, none, some ⟨⟨"22222222-2222-2222-2222-222222222222"⟩, "bob", 130⟩,
       none, none, [], some p⟩
     let res := handle_manual_frame claims 100
       ⟨"33333333-3333-3333-3333-333333333333"⟩
       (some (RobotCommand.Navigate "C" "D")) s
     res.1.manual_lock = none ∧
     res.1.queue.head? = some p ∧
     res.1.active_route =
       some ⟨⟨"33333333-3333-3333-3333-333333333333"⟩, "C", "D", 100, "alice"⟩ ∧
     res.2 = [RobotCommand.Cancel, RobotCommand.Navigate "C" "D"]) := by
  refine ⟨by decide, ?_⟩
  exact (admin_navigate_preemption
    ⟨"44444444-4444-4444-4444-444444444444", "alice", "Admin"⟩ 100
    ⟨"33333333-3333-3333-3333-333333333333"⟩ "C" "D"
    ⟨none, none, some ⟨⟨"22222222-2222-2222-2222-222222222222"⟩, "bob", 130⟩,
     none, none, [],
     some ⟨⟨"11111111-1111-1111-1111-111111111111"⟩, "A", "B", 0, "bob"⟩⟩
    (by decide)).2 _ rfl

/-- C8 (amended): for an Operator or Admin caller, DELETE /drive/lock
succeeds iff the stored lock's holder id equals the caller's sub — the
source applies no expiry check — in which case the slot is cleared; in
every other case it reports a domain error and leaves the store
unchanged. -/
theorem release_lock_succeeds_iff_holder (claims : Claims)
    (s : SharedRobotState) (hop : can_operate claims.role = true) :
    ((release_lock claims s).1 = ReleaseOutcome.success ↔
      ∃ l, s.manual_lock = some l ∧ l.holder_id.toString = claims.sub) ∧
    ((release_lock claims s).1 = ReleaseOutcome.success →
      (release_lock claims s).2 = { s with manual_lock := none }) ∧
    ((release_lock claims s).1 ≠ ReleaseOutcome.success →
      (release_lock claims s).2 = s) := by
  cases hml : s.manual_lock with
  | none => simp [release_lock, hop, hml]
  | some l =>
    by_cases hid : l.holder_id.toString = claims.sub <;>
      simp [release_lock, hop, hml, hid]

/-- Closed witness for `release_lock_succeeds_iff_holder`: the holder
releases; a non-holder gets the domain error. -/
theorem release_lock_succeeds_iff_holder_witness :
    (let claims : Claims :=
      ⟨"22222222-2222-2222-2222-222222222222", "bob", "Operator"⟩
     let s : SharedRobotState :=
      ⟨none, none, some ⟨⟨"22222222-2222-2222-2222-222222222222"⟩, "bob", 130⟩,
       none, none, [], none⟩
     can_operate claims.role = true ∧
     ((release_lock claims s).1 = ReleaseOutcome.success ↔
      ∃ l, s.manual_lock = some l ∧ l.holder_id.toString = claims.sub)) := by
  exact ⟨rfl, (release_lock_succeeds_iff_holder
    ⟨"22222222-2222-2222-2222-222222222222", "bob", "Operator"⟩
    ⟨none, none, some ⟨⟨"22222222-2222-2222-2222-222222222222"⟩, "bob", 130⟩,
     none, none, [], none⟩ (by decide)).1⟩

/-- C8 counterexample to the claim as stated: the holder of an already
expired lock (`expires_at = 90 ≤ now = 100`) still releases successfully
and the slot is cleared, although the claim requires a domain error and
an unchanged slot whenever the stored lock is not effective. -/
theorem release_lock_succeeds_on_expired_lock :
    (let claims : Claims :=
      ⟨"22222222-2222-2222-2222-222222222222", "bob", "Operator"⟩
     let s : SharedRobotState :=
      ⟨none, none, some ⟨⟨"22222222-2222-2222-2222-222222222222"⟩, "bob", 90⟩,
       none, none, [], none⟩
     lock_is_effective 100 s = false ∧
     (release_lock claims s).1 = ReleaseOutcome.success ∧
     (release_lock claims s).2.manual_lock = none) := by
  exact ⟨rfl, rfl, rfl⟩

/-- Helper: a non-success outcome of `finish_acquire` leaves the store
unchanged (the only mutation sits in the success branch). -/
theorem finish_acquire_not_success (claims : Claims) (now : Int)
    (s : SharedRobotState)
    (h : (finish_acquire claims now s).1.isSuccess = false) :
    (finish_acquire claims now s).2 = s := by
  unfold finish_acquire at h ⊢
  cases hp : Uuid.parse claims.sub <;>
    simp [hp, AcquireOutcome.isSuccess] at h ⊢

/-- Helper: every branch of `acquire_lock` either returns the store
unchanged or defers to `finish_acquire`. -/
theorem acquire_lock_cases (claims : Claims) (now : Int)
    (s : SharedRobotState) :
    (acquire_lock claims now s).2 = s ∨
    acquire_lock claims now s = finish_acquire claims now s := by
  unfold acquire_lock
  split
  · left; rfl
  · split
    · left; rfl
    · split
      · split
        · left; rfl
        · right; rfl
      · right; rfl

/-- C10: whenever POST /drive/lock does not answer success — forbidden
role, active route for a non-admin, a foreign effective lock for a
non-admin, or an unparseable caller sub — the store (in particular the
manual lock slot) is exactly unchanged. -/
theorem acquire_lock_error_is_atomic (claims : Claims) (now : Int)
    (s : SharedRobotState)
    (h : (acquire_lock claims now s).1.isSuccess = false) :
    (acquire_lock claims now s).2 = s := by
  rcases acquire_lock_cases claims now s with hcase | hcase
  · exact hcase
  · rw [hcase] at h ⊢
    exact finish_acquire_not_success claims now s h

/-- Closed witness for `acquire_lock_error_is_atomic`: a Viewer's
acquire attempt is rejected and the store is untouched. -/
theorem acquire_lock_error_is_atomic_witness :
    (let claims : Claims :=
      ⟨"22222222-2222-2222-2222-222222222222", "eve", "Viewer"⟩
     let s : SharedRobotState :=
      ⟨none, none, some ⟨⟨"22222222-2222-2222-2222-222222222222"⟩, "bob", 130⟩,
       none, none, [], none⟩
     (acquire_lock claims 100 s).1.isSuccess = false ∧
     (acquire_lock claims 100 s).2 = s) := by
  refine ⟨by decide, ?_⟩
  exact acquire_lock_error_is_atomic _ 100 _ (by decide)

/-- Helper: stable insertion permutes. -/
theorem insertByAddedAt_perm (x : QueuedRoute) (l : List QueuedRoute) :
    (insertByAddedAt x l).Perm (x :: l) := by
  induction l with
  | nil => simp [insertByAddedAt]
  | cons y ys ih =>
    unfold insertByAddedAt
    split
    · exact List.Perm.refl _
    · exact (ih.cons y).trans (List.Perm.swap x y ys)

/-- Helper: the stable sort by `added_at` permutes its input. -/
theorem sortByAddedAt_perm (l : List QueuedRoute) :
    (sortByAddedAt l).Perm l := by
  induction l with
  | nil => simp [sortByAddedAt]
  | cons x xs ih =>
    exact (insertByAddedAt_perm x (sortByAddedAt xs)).trans (ih.cons x)

/-- Helper: `pickMin` answers `none` only on the empty list. -/
theorem pickMin_none (f : QueuedRoute → Nat) (l : List QueuedRoute)
    (h : pickMin f l = none) : l = [] := by
  cases l with
  | nil => rfl
  | cons r rs =>
    exfalso
    simp only [pickMin] at h
    cases hm : pickMin f rs with
    | none => simp [hm] at h
    | some p =>
      obtain ⟨b, rest⟩ := p
      simp only [hm] at h
      revert h
      split <;> simp

/-- Helper: the element `pickMin` selects, re-consed onto the remaining
list, permutes the input. -/
theorem pickMin_perm (f : QueuedRoute → Nat) (l : List QueuedRoute)
    (b : QueuedRoute) (rest : List QueuedRoute)
    (h : pickMin f l = some (b, rest)) : (b :: rest).Perm l := by
  induction l generalizing b rest with
  | nil => simp [pickMin] at h
  | cons r rs ih =>
    simp only [pickMin] at h
    cases hm : pickMin f rs with
    | none =>
      rw [hm] at h
      obtain rfl := pickMin_none f rs hm
      simp at h
      obtain ⟨rfl, rfl⟩ := h
      exact List.Perm.refl _
    | some p =>
      obtain ⟨b', rest'⟩ := p
      rw [hm] at h
      by_cases hle : f r ≤ f b'
      · simp [hle] at h
        obtain ⟨rfl, rfl⟩ := h
        exact List.Perm.refl _
      · simp [hle] at h
        obtain ⟨rfl, rfl⟩ := h
        exact (List.Perm.swap _ _ _).trans ((ih _ _ hm).cons r)

/-- Helper: `pickMin` removes exactly one element. -/
theorem pickMin_length (f : QueuedRoute → Nat) (l : List QueuedRoute)
    (b : QueuedRoute) (rest : List QueuedRoute)
    (h : pickMin f l = some (b, rest)) : rest.length + 1 = l.length := by
  simpa using (pickMin_perm f l b rest h).length_eq

/-- Helper: the greedy loop permutes the remaining routes when given
enough fuel. -/
theorem greedyAux_perm (cost : String → String → Nat) (fuel : Nat) :
    ∀ (last : QueuedRoute) (routes : List QueuedRoute),
      routes.length ≤ fuel →
        (greedyAux cost fuel last routes).Perm routes := by
  induction fuel with
  | zero =>
    intro last routes hlen
    obtain rfl : routes = [] :=
      List.eq_nil_of_length_eq_zero (Nat.le_zero.mp hlen)
    simp [greedyAux]
  | succ fuel ih =>
    intro last routes hlen
    simp only [greedyAux]
    cases hm : pickMin (fun r => transition_cost cost last r) routes with
    | none =>
      obtain rfl := pickMin_none _ _ hm
      simp
    | some p =>
      obtain ⟨b, rest⟩ := p
      have hlen' : rest.length ≤ fuel := by
        have := pickMin_length _ _ _ _ hm
        omega
      exact ((ih b rest hlen').cons b).trans (pickMin_perm _ _ _ _ hm)

/-- Helper: the greedy phase returns a permutation of its input. -/
theorem greedy_atsp_path_perm (cost : String → String → Nat)
    (routes : List QueuedRoute) :
    (greedy_atsp_path cost routes).Perm routes := by
  unfold greedy_atsp_path
  split
  · exact List.Perm.refl _
  · have hperm := sortByAddedAt_perm routes
    cases hs : sortByAddedAt routes with
    | nil => rw [hs] at hperm; exact hperm
    | cons r rs =>
      rw [hs] at hperm
      exact ((greedyAux_perm cost rs.length r rs (le_refl _)).cons r).trans
        hperm

/-- Helper: reversing an index segment permutes the list. -/
theorem reverseSegment_perm (p : List QueuedRoute) (a b : Nat)
    (hab : a ≤ b) : (reverseSegment p a b).Perm p := by
  unfold reverseSegment
  have hsplit : p.take a ++ ((p.drop a).take (b - a) ++ p.drop b) = p := by
    have h1 : (p.drop a).drop (b - a) = p.drop b := by
      rw [List.drop_drop]
      congr 1
      omega
    rw [← h1, List.take_append_drop, List.take_append_drop]
  have hperm :
      (p.take a ++ (((p.drop a).take (b - a)).reverse ++ p.drop b)).Perm
        (p.take a ++ ((p.drop a).take (b - a) ++ p.drop b)) :=
    List.Perm.append_left _ ((List.reverse_perm _).append_right _)
  rw [List.append_assoc]
  refine hperm.trans ?_
  rw [hsplit]

/-- Helper: the inner 2-opt loop permutes the carried path. -/
theorem twoOptJ_perm (cost : String → String → Nat) (n i : Nat) :
    ∀ (k j : Nat) (st : List QueuedRoute × Bool), n - j ≤ k →
      i + 1 ≤ j → ((twoOptJ cost n i j st).1).Perm st.1 := by
  intro k
  induction k with
  | zero =>
    intro j st hk hij
    unfold twoOptJ
    have hjn : ¬ j < n := by omega
    simp [hjn]
  | succ k ih =>
    intro j st hk hij
    unfold twoOptJ
    by_cases hjn : j < n
    · rw [dif_pos hjn]
      have hrec : ∀ st' : List QueuedRoute × Bool, st'.1.Perm st.1 →
          ((twoOptJ cost n i (j + 1) st').1).Perm st.1 := by
        intro st' hp
        exact (ih (j + 1) st' (by omega) (by omega)).trans hp
      split
      all_goals try exact hrec st (List.Perm.refl _)
      split
      · exact hrec _ (reverseSegment_perm _ _ _ (by omega))
      · exact hrec st (List.Perm.refl _)
    · rw [dif_neg hjn]

/-- Helper: the outer 2-opt loop permutes the carried path. -/
theorem twoOptI_perm (cost : String → String → Nat) (n : Nat) :
    ∀ (k i : Nat) (st : List QueuedRoute × Bool), n - 2 - i ≤ k →
      ((twoOptI cost n i st).1).Perm st.1 := by
  intro k
  induction k with
  | zero =>
    intro i st hk
    unfold twoOptI
    have hin : ¬ i < n - 2 := by omega
    simp [hin]
  | succ k ih =>
    intro i st hk
    unfold twoOptI
    by_cases hin : i < n - 2
    · rw [dif_pos hin]
      exact (ih (i + 1) _ (by omega)).trans
        (twoOptJ_perm cost n i (n - (i + 2)) (i + 2) st (by omega)
          (by omega))
    · rw [dif_neg hin]

/-- Helper: the fuelled `while improved` loop permutes the path. -/
theorem two_opt_loop_perm (cost : String → String → Nat) (n : Nat)
    (fuel : Nat) : ∀ p, (two_opt_loop cost n fuel p).Perm p := by
  induction fuel with
  | zero => intro p; simp [two_opt_loop]
  | succ fuel ih =>
    intro p
    have hI := twoOptI_perm cost n (n - 2) 0 (p, false) (by omega)
    simp only [two_opt_loop]
    split
    · exact (ih _).trans hI
    · exact hI

/-- Helper: the 2-opt phase permutes the path. -/
theorem two_opt_atsp_path_perm (cost : String → String → Nat)
    (fuel : Nat) (path : List QueuedRoute) :
    (two_opt_atsp_path cost fuel path).Perm path := by
  unfold two_opt_atsp_path
  split
  · exact List.Perm.refl _
  · exact two_opt_loop_perm cost path.length fuel path

/-- C9 (amended): the optimizer returns a permutation of the input
queue, and returns inputs of length at most 1 unchanged. (The claimed
cost non-increase against the input order fails; see the
counterexample.) -/
theorem solve_atsp_path_permutes (fuel : Nat)
    (cost : String → String → Nat) (routes : List QueuedRoute) :
    (solve_atsp_path fuel cost routes).Perm routes ∧
    (routes.length ≤ 1 → solve_atsp_path fuel cost routes = routes) := by
  constructor
  · exact (two_opt_atsp_path_perm cost fuel _).trans
      (greedy_atsp_path_perm cost routes)
  · intro hlen
    unfold solve_atsp_path greedy_atsp_path two_opt_atsp_path
    rw [if_pos hlen, if_pos (by omega : routes.length < 4)]

/-- Closed witness for `solve_atsp_path_permutes` on a singleton
queue. -/
theorem solve_atsp_path_permutes_witness :
    (let r : QueuedRoute :=
      ⟨⟨"11111111-1111-1111-1111-111111111111"⟩, "X", "Y", 0, "u"⟩
     (solve_atsp_path 5 default_cost [r]).Perm [r] ∧
     solve_atsp_path 5 default_cost [r] = [r]) := by
  refine ⟨(solve_atsp_path_permutes 5 default_cost _).1, ?_⟩
  exact (solve_atsp_path_permutes 5 default_cost
    [⟨⟨"11111111-1111-1111-1111-111111111111"⟩, "X", "Y", 0, "u"⟩]).2
    (by decide)

/-- C9 counterexample to the claim as stated: on the two-route queue
[{Z→X, addedAt 1}, {X→Y, addedAt 0}] the input order has total default
cost 0 (destination X meets start X), but the optimizer first sorts by
addedAt and returns the order [{X→Y}, {Z→X}] of total cost 1 — strictly
worse than the input order. -/
theorem solve_atsp_path_increases_cost :
    (let rA : QueuedRoute :=
      ⟨⟨"11111111-1111-1111-1111-111111111111"⟩, "X", "Y", 0, "u"⟩
     let rB : QueuedRoute :=
      ⟨⟨"22222222-2222-2222-2222-222222222222"⟩, "Z", "X", 1, "u"⟩
     path_cost default_cost [rB, rA] = 0 ∧
     solve_atsp_path 100 default_cost [rB, rA] = [rA, rB] ∧
     path_cost default_cost (solve_atsp_path 100 default_cost [rB, rA]) =
       1) := by
  exact ⟨by decide, by decide, by decide⟩

end TeleTable
